import Mathlib

/-!
Shallow embedding of the sax streaming markup parser (sax.go).

The Go `Reader` wraps a buffered rune source with one-rune pushback, an
open-element stack, a filter function and per-category listener lists.
The embedding models:
  * the cursor as a `List Char` of remaining input; `read` takes the head,
    `unread` re-prepends the character that was just read;
  * the scanner state (`Scan`) as the cursor plus the dispatcher state:
    the `silent` flag and an event trace.  A callback invocation is modelled
    as an `Event` appended to the trace iff the corresponding emit ran with
    `silent` off (this corresponds to runs in which every callback returns
    success); the list-mutation mechanics of a dispatch round
    (stop / unsubscribe / failure) are modelled separately by `emitNodeRun`,
    mirroring the index-adjusted loop of the Go emitNode/emitString/emitAttr;
  * the full reader state (`RState`) as a `Scan` plus the open-element stack
    (top of the Go slice = head of the list);
  * fallible parsing as `Except Err`; Go sentinel errors map to `Err`
    constructors (`ErrChar` to `.char`, wrapping `ErrMalformed` to
    `.malformed`, `io.EOF` to `.eof`, the plain "stack is empty" error of
    `pop` to `.stackEmpty`, a `strconv.ParseInt` failure to `.intErr`);
  * unbounded `for` loops that re-enter after a nested scan take a fuel
    parameter and answer `.error .fuel` on exhaustion; loops that consume
    exactly one character per iteration are structural on the input list.
-/

namespace Sax

/-- Qualified name: namespace prefix and local name (sax.go `Name`). -/
structure Name where
  ns : String := ""
  name : String := ""
deriving DecidableEq, Repr

/-- `Name.Fqn`: `prefix:local` when a prefix is present, else `local`. -/
def Name.fqn (n : Name) : String :=
  if n.ns = "" then n.name else n.ns ++ ":" ++ n.name

/-- Attribute: qualified name plus decoded value (sax.go `Attr`). -/
structure Attr where
  name : Name
  value : String
deriving DecidableEq, Repr

/-- Token type tag (sax.go `NodeType`). -/
inductive NodeType
  | procInst
  | beginElement
  | endElement
  | text
  | cdata
  | comment
deriving DecidableEq, Repr

/-- Token produced by one scan step (sax.go `Node`). -/
structure Node where
  type : NodeType
  name : Name := {}
  attrs : List Attr := []
  content : String := ""
  selfClosing : Bool := false
deriving DecidableEq, Repr

/-- Error kinds of the Go implementation. -/
inductive Err
  | eof
  | fuel
  | char (c : Char)
  | malformed (msg : String)
  | stackEmpty
  | intErr
deriving DecidableEq, Repr

/-- `true` exactly on errors wrapping the `ErrMalformed` sentinel. -/
def isMalformed : Err → Bool
  | .malformed _ => true
  | _ => false

/-- One dispatched callback invocation (payload per category). -/
inductive Event
  | beginElem (n : Name)
  | endElem (n : Name)
  | instEv (n : Name)
  | attrEv (n : Name) (v : String)
  | textEv (s : String)
  | commentEv (s : String)
deriving DecidableEq, Repr

/-! ## Lexical helpers (sax.go character classes) -/

def isLetter (c : Char) : Bool :=
  ('a' ≤ c ∧ c ≤ 'z') ∨ ('A' ≤ c ∧ c ≤ 'Z')

def isDigit (c : Char) : Bool :=
  '0' ≤ c ∧ c ≤ '9'

def isHex (c : Char) : Bool :=
  isDigit c ∨ ('a' ≤ c ∧ c ≤ 'f') ∨ ('A' ≤ c ∧ c ≤ 'F')

def isName (c : Char) : Bool :=
  isLetter c ∨ isDigit c ∨ c = '-' ∨ c = '_'

def isQuote (c : Char) : Bool :=
  c = '"' ∨ c = '\''

def isSpace (c : Char) : Bool :=
  c = ' ' ∨ c = '\t'

def isNL (c : Char) : Bool :=
  c = '\n' ∨ c = '\r'

def isBlank (c : Char) : Bool :=
  isSpace c ∨ isNL c

/-- Go `unicode.IsSpace` restricted to Latin-1 (the range the documents the
claims exercise use); used by `strings.TrimSpace`. -/
def goIsSpace (c : Char) : Bool :=
  c = ' ' ∨ c = '\t' ∨ c = '\n' ∨ c = Char.ofNat 0x0B ∨ c = Char.ofNat 0x0C ∨
  c = '\r' ∨ c = Char.ofNat 0x85 ∨ c = Char.ofNat 0xA0

/-- `strings.TrimSpace` on the accumulated rune list. -/
def trimList (cs : List Char) : List Char :=
  ((cs.dropWhile goIsSpace).reverse.dropWhile goIsSpace).reverse

/-- Whether a character list contains two adjacent `]` (the sequence that
ends or faults a CDATA section). -/
def hasDD : List Char → Bool
  | c1 :: c2 :: rest => (c1 == ']' && c2 == ']') || hasDD (c2 :: rest)
  | _ => false

/-- `strings.TrimSpace(buf.String())`. -/
def trimStr (cs : List Char) : String :=
  String.mk (trimList cs)

/-! ## Cursor (bufio.Reader with one-rune pushback) -/

abbrev Input := List Char

/-- `Reader.read`: one character, or `io.EOF`. -/
def read (inp : Input) : Except Err (Char × Input) :=
  match inp with
  | [] => .error .eof
  | c :: rest => .ok (c, rest)

/-- `Reader.peek`: read then unread; yields the zero rune at end of input
(the Go helper discards the read error). -/
def peek (inp : Input) : Char :=
  match inp with
  | [] => Char.ofNat 0
  | c :: _ => c

/-- `Reader.skipBlanks`: consume blanks, push back the first non-blank. -/
def skipBlanks (inp : Input) : Input :=
  inp.dropWhile isBlank

/-- `Reader.want`: read one character, fail with `ErrChar` unless it is the
expected one. -/
def want (c : Char) (inp : Input) : Except Err Input :=
  match read inp with
  | .error e => .error e
  | .ok (d, rest) => if d = c then .ok rest else .error (.char d)

/-! ## Entities (sax.go entities table, parseEntity and friends) -/

/-- The fixed named-entity table. -/
def entities (s : String) : Option Char :=
  if s = "quot" then some '"'
  else if s = "apos" then some '\''
  else if s = "lt" then some '<'
  else if s = "gt" then some '>'
  else if s = "amp" then some '&'
  else none

/-- Loop of `parseStringEntity`: letters up to `;` into the buffer. -/
def parseStringEntityLoop (acc : List Char) : Input → Except Err (List Char × Input)
  | [] => .error .eof
  | c :: rest =>
    if c = ';' then .ok (acc, rest)
    else if ¬ isLetter c then .error (.char c)
    else parseStringEntityLoop (acc ++ [c]) rest

/-- `Reader.parseStringEntity` (the caller has already pushed the first
character back, so the input starts at it). -/
def parseStringEntity (inp : Input) : Except Err (Char × Input) :=
  match parseStringEntityLoop [] inp with
  | .error e => .error e
  | .ok (cs, rest) =>
    match entities (String.mk cs) with
    | some c => .ok (c, rest)
    | none => .error (.malformed (String.mk cs ++ " unknown entity"))

/-- Loop of `parseNumericEntity`: accepted digits up to `;`, any other
character is `ErrChar`. -/
def parseNumericEntityLoop (accept : Char → Bool) (acc : List Char) :
    Input → Except Err (List Char × Input)
  | [] => .error .eof
  | c :: rest =>
    if c = ';' then .ok (acc, rest)
    else if ¬ accept c then .error (.char c)
    else parseNumericEntityLoop accept (acc ++ [c]) rest

/-- Digit value as used by `strconv.ParseInt` (inputs are pre-validated by
the accept function). -/
def digitVal (c : Char) : Nat :=
  if '0' ≤ c ∧ c ≤ '9' then c.toNat - '0'.toNat
  else if 'a' ≤ c ∧ c ≤ 'f' then c.toNat - 'a'.toNat + 10
  else if 'A' ≤ c ∧ c ≤ 'F' then c.toNat - 'A'.toNat + 10
  else 0

/-- `strconv.ParseInt(s, base, 32)` on a digit-only string: empty string is
a syntax error, values past the 32-bit signed range are a range error. -/
def parseIntBase (base : Nat) (ds : List Char) : Except Err Nat :=
  if ds.isEmpty then .error .intErr
  else
    let v := ds.foldl (fun acc c => acc * base + digitVal c) 0
    if v ≤ 2147483647 then .ok v else .error .intErr

/-- `Reader.parseNumericEntity`. -/
def parseNumericEntity (base : Nat) (accept : Char → Bool) (inp : Input) :
    Except Err (Char × Input) :=
  match parseNumericEntityLoop accept [] inp with
  | .error e => .error e
  | .ok (ds, rest) =>
    match parseIntBase base ds with
    | .error e => .error e
    | .ok n => .ok (Char.ofNat n, rest)

/-- `Reader.parseEntity`, entered after the `&` was consumed.  Mirrors the
source exactly: after `#` one character is read to test for the hex marker
`x`, and it is consumed whether or not it is `x`. -/
def parseEntity (inp : Input) : Except Err (Char × Input) :=
  match read inp with
  | .error e => .error e
  | .ok (c, rest) =>
    if c = '#' then
      match read rest with
      | .error e => .error e
      | .ok (c2, rest2) =>
        let accept := if c2 = 'x' then isHex else isDigit
        let base := if c2 = 'x' then 16 else 10
        parseNumericEntity base accept rest2
    else
      parseStringEntity (c :: rest)

/-! ## Scanner state -/

/-- Cursor plus dispatcher state: the Go `Reader` without the stack.  The
trace records every callback invocation performed so far. -/
structure Scan where
  input : Input
  silent : Bool
  trace : List Event
deriving DecidableEq, Repr

/-- `Reader.silent`: toggle suppression of dispatch. -/
def silentToggle (sc : Scan) : Scan :=
  { sc with silent := ¬ sc.silent }

/-- Shared guard of every emit helper: record the invocation unless silent
(the cursor and flag are untouched either way). -/
def emitEvent (e : Event) (sc : Scan) : Scan :=
  { sc with trace := sc.trace ++ if sc.silent then [] else [e] }

def emitBegin (n : Name) (sc : Scan) : Scan := emitEvent (.beginElem n) sc
def emitEnd (n : Name) (sc : Scan) : Scan := emitEvent (.endElem n) sc
def emitInst (n : Name) (sc : Scan) : Scan := emitEvent (.instEv n) sc
def emitAttr (n : Name) (v : String) (sc : Scan) : Scan := emitEvent (.attrEv n v) sc
def emitText (s : String) (sc : Scan) : Scan := emitEvent (.textEv s) sc
def emitComment (s : String) (sc : Scan) : Scan := emitEvent (.commentEv s) sc

/-- Apply `skipBlanks` to a scanner's cursor. -/
def scSkipBlanks (sc : Scan) : Scan :=
  { sc with input := skipBlanks sc.input }

/-! ## Name, value and attribute parsing -/

/-- Loop of the local `parse` closure in `parseName`: name characters into
the buffer, the terminating character is pushed back. -/
def parseNameLoop (acc : List Char) : Input → Except Err (List Char × Input)
  | [] => .error .eof
  | c :: rest =>
    if isName c then parseNameLoop (acc ++ [c]) rest
    else .ok (acc, c :: rest)

/-- The local `parse` closure in `parseName`: a letter then name characters. -/
def parseNameCore (inp : Input) : Except Err (String × Input) :=
  match read inp with
  | .error e => .error e
  | .ok (c, rest) =>
    if isLetter c then
      match parseNameLoop [c] rest with
      | .error e => .error e
      | .ok (cs, rest2) => .ok (String.mk cs, rest2)
    else .error (.char c)

/-- `Reader.parseName`: a name, optionally `prefix:local`. -/
def parseName (inp : Input) : Except Err (Name × Input) :=
  match parseNameCore inp with
  | .error e => .error e
  | .ok (s, rest) =>
    if peek rest = ':' then
      match rest with
      | _ :: rest2 =>
        match parseNameCore rest2 with
        | .error e => .error e
        | .ok (s2, rest3) => .ok ({ ns := s, name := s2 }, rest3)
      | [] => .error .eof
    else .ok ({ ns := "", name := s }, rest)

/-- Loop of `parseValue`: characters up to the opening quote, `&`-entities
decoded inline. -/
def parseValueLoop (fuel : Nat) (quote : Char) (acc : List Char) (inp : Input) :
    Except Err (List Char × Input) :=
  match fuel with
  | 0 => .error .fuel
  | fuel + 1 =>
    match read inp with
    | .error e => .error e
    | .ok (c, rest) =>
      if c = quote then .ok (acc, rest)
      else if c = '&' then
        match parseEntity rest with
        | .error e => .error e
        | .ok (d, rest2) => parseValueLoop fuel quote (acc ++ [d]) rest2
      else parseValueLoop fuel quote (acc ++ [c]) rest

/-- `Reader.parseValue`: a single- or double-quoted, trimmed value. -/
def parseValue (fuel : Nat) (inp : Input) : Except Err (String × Input) :=
  match read inp with
  | .error e => .error e
  | .ok (c, rest) =>
    if isQuote c then
      match parseValueLoop fuel c [] rest with
      | .error e => .error e
      | .ok (cs, rest2) => .ok (trimStr cs, rest2)
    else .error (.char c)

/-- `Reader.parseAttributes`: `name = "value"` pairs while the next character
could start a name; duplicates are `ErrMalformed`; each attribute is appended
and dispatched in source order; the terminating character is pushed back. -/
def parseAttrsLoop (fuel : Nat) (seen : List Name) (acc : List Attr) (sc : Scan) :
    Except Err (List Attr × Scan) :=
  match fuel with
  | 0 => .error .fuel
  | fuel + 1 =>
    match read sc.input with
    | .error e => .error e
    | .ok (c, rest) =>
      if ¬ isName c then .ok (acc, { sc with input := c :: rest })
      else
        match parseName (c :: rest) with
        | .error e => .error e
        | .ok (nm, rest2) =>
          if seen.contains nm then
            .error (.malformed (nm.fqn ++ " duplicated attribute"))
          else
            match want '=' (skipBlanks rest2) with
            | .error e => .error e
            | .ok rest3 =>
              match parseValue fuel (skipBlanks rest3) with
              | .error e => .error e
              | .ok (v, rest4) =>
                let sc2 := emitAttr nm v { sc with input := rest4 }
                parseAttrsLoop fuel (nm :: seen) (acc ++ [⟨nm, v⟩])
                  (scSkipBlanks sc2)

/-! ## Token parsers -/

/-- Loop of `parseText`: characters up to `<` (pushed back), `&`-entities
decoded inline. -/
def parseTextLoop (fuel : Nat) (acc : List Char) (inp : Input) :
    Except Err (List Char × Input) :=
  match fuel with
  | 0 => .error .fuel
  | fuel + 1 =>
    match read inp with
    | .error e => .error e
    | .ok (c, rest) =>
      if c = '<' then .ok (acc, c :: rest)
      else if c = '&' then
        match parseEntity rest with
        | .error e => .error e
        | .ok (d, rest2) => parseTextLoop fuel (acc ++ [d]) rest2
      else parseTextLoop fuel (acc ++ [c]) rest

/-- `Reader.parseText`. -/
def parseText (fuel : Nat) (sc : Scan) : Except Err (Node × Scan) :=
  match parseTextLoop fuel [] sc.input with
  | .error e => .error e
  | .ok (cs, rest) =>
    let content := trimStr cs
    let sc1 := emitText content { sc with input := rest }
    .ok ({ type := .text, content := content }, sc1)

/-- Loop of `parseData`: raw characters (no entity decoding) up to `]]>`;
a `]]` not followed by `>` is `ErrMalformed`.  At end of input the inner
read yields the zero rune with its error discarded, as in the source. -/
def parseDataLoop (acc : List Char) : Input → Except Err (List Char × Input)
  | [] => .error .eof
  | c :: rest =>
    if c = ']' ∧ peek rest = ']' then
      match rest with
      | _ :: rest2 =>
        match read rest2 with
        | .ok (c3, rest3) =>
          if c3 = '>' then .ok (acc, rest3)
          else .error (.malformed "]] can not appear in CDATA sections")
        | .error _ => .error (.malformed "]] can not appear in CDATA sections")
      | [] => .error .eof
    else parseDataLoop (acc ++ [c]) rest

/-- `Reader.parseData`: a CDATA section, entered at the first `[`.  The
trimmed raw content is dispatched as a text event and the token carries
type `cdata` with the self-closing flag set. -/
def parseData (sc : Scan) : Except Err (Node × Scan) :=
  match want '[' sc.input with
  | .error e => .error e
  | .ok r1 =>
    match parseName r1 with
    | .error e => .error e
    | .ok (nm, r2) =>
      if nm.name ≠ "CDATA" then
        .error (.malformed ("unexpected " ++ nm.fqn ++ "! want CDATA"))
      else
        match want '[' r2 with
        | .error e => .error e
        | .ok r3 =>
          match parseDataLoop [] (skipBlanks r3) with
          | .error e => .error e
          | .ok (cs, r4) =>
            let content := trimStr cs
            let sc1 := emitText content { sc with input := r4 }
            .ok ({ type := .cdata, name := nm, content := content,
                   selfClosing := true }, sc1)

/-- Loop of `parseComment`: characters (entities decoded) until `-->`;
a `--` not followed by `>` is re-emitted into the content.  At end of input
the read after `--` yields the zero rune with its error discarded. -/
def parseCommentLoop (fuel : Nat) (acc : List Char) (inp : Input) :
    Except Err (List Char × Input) :=
  match fuel with
  | 0 => .error .fuel
  | fuel + 1 =>
    match read inp with
    | .error e => .error e
    | .ok (c, rest) =>
      if c = '-' ∧ peek rest = '-' then
        match rest with
        | _ :: rest2 =>
          let (c2, rest3) :=
            match read rest2 with
            | .ok (d, r) => (d, r)
            | .error _ => (Char.ofNat 0, rest2)
          if c2 = '>' then .ok (acc, rest3)
          else if c2 = '&' then
            match parseEntity rest3 with
            | .error e => .error e
            | .ok (d, rest4) => parseCommentLoop fuel (acc ++ ['-', '-', d]) rest4
          else parseCommentLoop fuel (acc ++ ['-', '-', c2]) rest3
        | [] => .error .eof
      else if c = '&' then
        match parseEntity rest with
        | .error e => .error e
        | .ok (d, rest2) => parseCommentLoop fuel (acc ++ [d]) rest2
      else parseCommentLoop fuel (acc ++ [c]) rest

/-- `Reader.parseComment`, entered at the first `-` after `<!`. -/
def parseComment (fuel : Nat) (sc : Scan) : Except Err (Node × Scan) :=
  match read sc.input with
  | .error _ => .error (.char (Char.ofNat 0))
  | .ok (c, rest) =>
    if c = '-' ∧ peek rest = '-' then
      match rest with
      | _ :: rest2 =>
        match parseCommentLoop fuel [] (skipBlanks rest2) with
        | .error e => .error e
        | .ok (cs, rest3) =>
          let content := trimStr cs
          let sc1 := emitComment content { sc with input := rest3 }
          .ok ({ type := .comment, content := content, selfClosing := true }, sc1)
      | [] => .error .eof
    else .error (.char c)

/-- `Reader.parseInstruction`, entered after `<?`. -/
def parseInstruction (fuel : Nat) (sc : Scan) : Except Err (Node × Scan) :=
  match parseName sc.input with
  | .error e => .error e
  | .ok (nm, rest) =>
    let sc1 := scSkipBlanks (emitInst nm { sc with input := rest })
    match parseAttrsLoop fuel [] [] sc1 with
    | .error e => .error e
    | .ok (attrs, sc2) =>
      match want '?' sc2.input with
      | .error e => .error e
      | .ok r1 =>
        match want '>' r1 with
        | .error e => .error e
        | .ok r2 =>
          .ok ({ type := .procInst, name := nm, attrs := attrs,
                 selfClosing := true }, { sc2 with input := r2 })

/-- `Reader.parseEndElement`, entered after `</`. -/
def parseEndElement (sc : Scan) : Except Err (Node × Scan) :=
  match parseName sc.input with
  | .error e => .error e
  | .ok (nm, rest) =>
    let sc1 := emitEnd nm { sc with input := rest }
    match want '>' (skipBlanks sc1.input) with
    | .error e => .error e
    | .ok rest2 => .ok ({ type := .endElement, name := nm }, { sc1 with input := rest2 })

/-- `Reader.parseOpenElement`, entered at the first letter after `<`.
The begin-element event fires right after the name is parsed and each
attribute event fires as the attribute is parsed, before the token is
handed to the caller. -/
def parseOpenElement (fuel : Nat) (sc : Scan) : Except Err (Node × Scan) :=
  match parseName sc.input with
  | .error e => .error e
  | .ok (nm, rest) =>
    let sc1 := scSkipBlanks (emitBegin nm { sc with input := rest })
    match parseAttrsLoop fuel [] [] sc1 with
    | .error e => .error e
    | .ok (attrs, sc2) =>
      match read sc2.input with
      | .error e => .error e
      | .ok (c, rest2) =>
        if c = '>' then
          .ok ({ type := .beginElement, name := nm, attrs := attrs },
               { sc2 with input := rest2 })
        else if c ≠ '/' then .error (.char c)
        else
          match want '>' rest2 with
          | .error e => .error e
          | .ok rest3 =>
            .ok ({ type := .beginElement, name := nm, attrs := attrs,
                   selfClosing := true }, { sc2 with input := rest3 })

/-! ## Stack and top-level dispatch -/

/-- Full reader state: scanner plus open-element stack (top at the head). -/
structure RState where
  scan : Scan
  stack : List Name
deriving DecidableEq, Repr

/-- `Reader.Depth`. -/
def Depth (st : RState) : Nat := st.stack.length

/-- `Reader.push`: push the name unless the token is self-closing. -/
def push (n : Node) (stack : List Name) : List Name :=
  if n.selfClosing then stack else n.name :: stack

/-- `Reader.pop`: empty stack is the plain "stack is empty" error (it does
not wrap `ErrMalformed`); a name mismatch wraps `ErrMalformed`. -/
def pop (stack : List Name) (n : Node) : Except Err (List Name) :=
  match stack with
  | [] => .error .stackEmpty
  | top :: rest =>
    if top = n.name then .ok rest
    else .error (.malformed ("element mismatched " ++ top.name ++ " vs " ++ n.name.name))

/-- `Reader.parseNode`, entered after `<`; dispatches on the next character
and consumes trailing blanks. -/
def parseNode (fuel : Nat) (st : RState) : Except Err (Node × RState) :=
  match read st.scan.input with
  | .error e => .error e
  | .ok (c, rest) =>
    let sc : Scan := { st.scan with input := rest }
    if c = '?' then
      match parseInstruction fuel sc with
      | .error e => .error e
      | .ok (n, sc') => .ok (n, ⟨scSkipBlanks sc', st.stack⟩)
    else if c = '!' then
      let c2 := peek rest
      if c2 = '[' then
        match parseData sc with
        | .error e => .error e
        | .ok (n, sc') => .ok (n, ⟨scSkipBlanks sc', st.stack⟩)
      else if c2 = '-' then
        match parseComment fuel sc with
        | .error e => .error e
        | .ok (n, sc') => .ok (n, ⟨scSkipBlanks sc', st.stack⟩)
      else .error (.char c2)
    else if c = '/' then
      match parseEndElement sc with
      | .error e => .error e
      | .ok (n, sc') =>
        match pop st.stack n with
        | .error e => .error e
        | .ok stk => .ok (n, ⟨scSkipBlanks sc', stk⟩)
    else if isLetter c then
      match parseOpenElement fuel { sc with input := c :: rest } with
      | .error e => .error e
      | .ok (n, sc') => .ok (n, ⟨scSkipBlanks sc', push n st.stack⟩)
    else .error (.char c)

/-- `Reader.next`: one scan step — a node after `<`, else a text run. -/
def next (fuel : Nat) (st : RState) : Except Err (Node × RState) :=
  match read st.scan.input with
  | .error e => .error e
  | .ok (c, rest) =>
    if c = '<' then parseNode fuel ⟨{ st.scan with input := rest }, st.stack⟩
    else
      match parseText fuel { st.scan with input := c :: rest } with
      | .error e => .error e
      | .ok (n, sc') => .ok (n, ⟨sc', st.stack⟩)

/-! ## Pull reader: filter, subtree skip, Read -/

/-- Outcome of the keep/filter function (`nil`, `ErrSkip`, `ErrIgnore`). -/
inductive KeepDecision
  | keep
  | skip
  | ignore
deriving DecidableEq, Repr

def KeepFunc := NodeType → Name → KeepDecision

/-- `keepAll`: the null filter. -/
def keepAll : KeepFunc := fun _ _ => .keep

/-- Filter returning skip-subtree for begin-elements named `a`. -/
def ignoreA : KeepFunc := fun t n =>
  if t = .beginElement ∧ n.name = "a" then .ignore else .keep

/-- Filter returning skip-subtree for text tokens. -/
def ignoreTextF : KeepFunc := fun t _ =>
  if t = .text then .ignore else .keep

/-- Event recorded for one dispatched attribute. -/
def evAttr (a : Attr) : Event := .attrEv a.name a.value

/-- Loop of `skipSubtree`: scan until the stack is back at the recorded
depth and the scanned node carries the skipped element's name.  (The Go
deferred silent-toggle also runs on the error path; that state is
unobservable because the error aborts `Read`.) -/
def skipLoop (fuel : Nat) (n : Node) (depth : Nat) (st : RState) : Except Err RState :=
  match fuel with
  | 0 => .error .fuel
  | fuel + 1 =>
    match next fuel st with
    | .error e => .error e
    | .ok (c, st') =>
      if st'.stack.length = depth ∧ n.name = c.name then
        .ok { st' with scan := silentToggle st'.scan }
      else skipLoop fuel n depth st'

/-- `Reader.skipSubtree`: a no-op unless the node is a non-self-closing
begin-element; otherwise toggle silent, record the depth as it is now
(that is, after the element was pushed), and scan until the loop condition
holds. -/
def skipSubtree (fuel : Nat) (n : Node) (st : RState) : Except Err RState :=
  if n.type ≠ .beginElement ∨ n.selfClosing then .ok st
  else
    let st1 : RState := { st with scan := silentToggle st.scan }
    skipLoop fuel n st1.stack.length st1

/-- `Reader.Read`: scan, apply the filter, and either return the token,
drop it, or drop its subtree and continue. -/
def Read (fuel : Nat) (keep : KeepFunc) (st : RState) : Except Err (Node × RState) :=
  match fuel with
  | 0 => .error .fuel
  | fuel + 1 =>
    match next fuel st with
    | .error e => .error e
    | .ok (n, st') =>
      match keep n.type n.name with
      | .ignore =>
        match skipSubtree fuel n st' with
        | .error e => .error e
        | .ok st'' => Read fuel keep st''
      | .skip => Read fuel keep st'
      | .keep => .ok (n, st')

/-- `New`: fresh reader over a document (leading blanks skipped). -/
def initState (doc : String) : RState :=
  ⟨⟨skipBlanks doc.toList, false, []⟩, []⟩

/-- Drain the reader, collecting the tokens `Read` surfaces and the error
that ends the run. -/
def readAll (fuel : Nat) (keep : KeepFunc) (st : RState) (acc : List Node) :
    List Node × Err :=
  match fuel with
  | 0 => (acc, .fuel)
  | fuel + 1 =>
    match Read fuel keep st with
    | .error e => (acc, e)
    | .ok (n, st') => readAll fuel keep st' (acc ++ [n])

/-! ## Dispatch-round mechanics (emitNode / emitString / emitAttr loops)

The Go emit loops walk one category's callback list by index; a callback
returning `ErrUnsubscribe` is spliced out and the index stepped back, any
other non-nil return aborts the round, with `ErrStop` mapped to overall
success by `checkListenerError`.  `emitNodeRun` mirrors that walk and also
records which callbacks were invoked, in order. -/

/-- Outcome a registered callback can signal. -/
inductive LRes
  | ok
  | unsub
  | stop
  | fail
deriving DecidableEq, Repr

/-- A registered callback: an identity plus its behaviour. -/
structure Callback where
  id : Nat
  fn : Name → LRes

/-- Outcome of one dispatch round after `checkListenerError`. -/
inductive EmitOutcome
  | ok
  | fail
deriving DecidableEq, Repr

/-- One dispatch round over a callback list: returns the surviving list,
the round's outcome, and the ids of the callbacks invoked, in order. -/
def emitNodeRun (n : Name) : List Callback → List Callback × EmitOutcome × List Nat
  | [] => ([], .ok, [])
  | cb :: rest =>
    match cb.fn n with
    | .ok =>
      let r := emitNodeRun n rest
      (cb :: r.1, r.2.1, cb.id :: r.2.2)
    | .unsub =>
      let r := emitNodeRun n rest
      (r.1, r.2.1, cb.id :: r.2.2)
    | .stop => (cb :: rest, .ok, [cb.id])
    | .fail => (cb :: rest, .fail, [cb.id])

/-- Concrete callbacks used to exercise one dispatch round. -/
def cbOkA : Callback := ⟨0, fun _ => .ok⟩
def cbStopB : Callback := ⟨1, fun _ => .stop⟩
def cbOkC : Callback := ⟨2, fun _ => .ok⟩
def cbUnsubD : Callback := ⟨3, fun _ => .unsub⟩

end Sax

deriving instance DecidableEq for Except

namespace Sax

/-! ## Claims -/

/-- C1: the claim states that the subtree skip of `Read` terminates exactly
when a later end-element returns the stack to the depth it had immediately
before the skipped element was pushed and names the skipped element.
`skipSubtree` instead records the depth after the push, so on the plain
document `<a><b>x</b></a>` with a filter skipping the subtree of `a` the
termination condition never holds and the skip consumes the rest of the
input: `Read` answers end-of-input.  The same document parses into five
well-nested tokens under the null filter, so the matching close tag is
present. -/
theorem c1_skip_runs_to_eof :
    Read 50 ignoreA (initState "<a><b>x</b></a>") = .error .eof ∧
    readAll 50 keepAll (initState "<a><b>x</b></a>") [] =
      ([{ type := .beginElement, name := { ns := "", name := "a" } },
        { type := .beginElement, name := { ns := "", name := "b" } },
        { type := .text, content := "x" },
        { type := .endElement, name := { ns := "", name := "b" } },
        { type := .endElement, name := { ns := "", name := "a" } }], .eof) := by
  constructor <;> rfl

/-- C2: decoding the decimal entity `&#33;` is claimed to yield the code
point 33.  `parseEntity` consumes the character after `#` while testing for
the hex marker `x` and never pushes it back, so the first decimal digit is
dropped: `&#33;` decodes to code point 3, not 33.  The hexadecimal form
`&#x21;` does yield 33 (`!`). -/
theorem c2_decimal_digit_dropped :
    parseEntity "#33;".toList = .ok (Char.ofNat 3, []) ∧
    parseEntity "#x21;".toList = .ok ('!', []) ∧
    Char.ofNat 3 ≠ '!' := by
  refine ⟨rfl, rfl, by decide⟩

/-- C5: the claim states that no begin/end/text/attribute event is
dispatched for any descendant of a subtree-skipped element and that control
resumes at the sibling after the matching close tag.  On
`<a><a></a><c></c></a>` with a filter skipping the subtree of `a`, the
off-by-one depth recorded by `skipSubtree` makes the skip terminate at the
inner `</a>`: the descendant `<c>` is then scanned live, its begin-element
event is dispatched (it appears in the trace) and the token is returned by
`Read`, while the skipped element's matching close `</a>` is still pending
in the input. -/
theorem c5_descendant_event_dispatched :
    Read 50 ignoreA (initState "<a><a></a><c></c></a>") =
      .ok ({ type := .beginElement, name := { ns := "", name := "c" } },
           ⟨⟨"</c></a>".toList, false,
             [.beginElem { ns := "", name := "a" },
              .beginElem { ns := "", name := "c" }]⟩,
            [{ ns := "", name := "c" }, { ns := "", name := "a" }]⟩) := by
  rfl

/-- C3 counterexample: parsing a close tag with an empty open-element stack
does not produce an error wrapping the malformed-document sentinel: `pop`
answers the plain "stack is empty" error. -/
theorem c3_counterexample_empty_stack :
    next 10 (initState "</a>") = .error .stackEmpty ∧
    isMalformed .stackEmpty = false := by
  refine ⟨rfl, rfl⟩

/-- C4 counterexample: a non-hex digit inside `&#x...;` fails with the
unexpected-character error, not with an error wrapping the
malformed-document sentinel. -/
theorem c4_counterexample_bad_digit :
    parseEntity "#xg;".toList = .error (.char 'g') ∧
    isMalformed (.char 'g') = false := by
  refine ⟨rfl, rfl⟩

/-- Helper: the numeric-entity loop fails with `ErrChar` at the first
character that is neither `;` nor in the accepted digit set. -/
theorem parseNumericEntityLoop_bad (accept : Char → Bool) (ds : List Char)
    (c : Char) (rest : Input) (acc : List Char)
    (hds : ∀ d ∈ ds, accept d = true ∧ d ≠ ';') (hc : accept c = false) (hs : c ≠ ';') :
    parseNumericEntityLoop accept acc (ds ++ c :: rest) = .error (.char c) := by
  induction ds generalizing acc with
  | nil => simp [parseNumericEntityLoop, hs, hc]
  | cons d ds ih =>
    have hd := hds d (List.mem_cons_self ..)
    simp [parseNumericEntityLoop, hd.2, hd.1]
    exact ih _ (fun x hx => hds x (List.mem_cons_of_mem _ hx))

/-- Helper: the named-entity loop consumes the letters of the name up to
the terminating `;`. -/
theorem parseStringEntityLoop_run (nm : List Char) (rest : Input) (acc : List Char)
    (hnm : ∀ d ∈ nm, isLetter d = true) :
    parseStringEntityLoop acc (nm ++ ';' :: rest) = .ok (acc ++ nm, rest) := by
  induction nm generalizing acc with
  | nil => simp [parseStringEntityLoop]
  | cons d ds ih =>
    have hd := hnm d (List.mem_cons_self ..)
    have hne : d ≠ ';' := by rintro rfl; simp [isLetter] at hd
    simp [parseStringEntityLoop, hne, hd]
    rw [ih _ (fun x hx => hnm x (List.mem_cons_of_mem _ hx))]
    simp

/-- C3 (amended): parsing a close tag whose name differs from the stack's
top fails with an error wrapping the malformed-document sentinel, while
parsing a close tag with an empty open-element stack fails with the plain
"stack is empty" error, which does not wrap the sentinel. -/
theorem c3_close_tag_errors (fuel : Nat) (rest : Input) (sil : Bool)
    (tr : List Event) (stk : List Name) :
    (stk = [] →
      next fuel ⟨⟨'<' :: '/' :: 'a' :: '>' :: rest, sil, tr⟩, stk⟩ = .error .stackEmpty) ∧
    (∀ t s, stk = t :: s → t ≠ { ns := "", name := "a" } →
      next fuel ⟨⟨'<' :: '/' :: 'a' :: '>' :: rest, sil, tr⟩, stk⟩ =
        .error (.malformed ("element mismatched " ++ t.name ++ " vs " ++ "a"))) := by
  have hend : parseEndElement ⟨'a' :: '>' :: rest, sil, tr⟩ =
      .ok ({ type := .endElement, name := { ns := "", name := "a" } },
           ⟨rest, sil, tr ++ if sil then [] else [.endElem { ns := "", name := "a" }]⟩) := by
    simp [parseEndElement, parseName, parseNameCore, parseNameLoop, read, peek, want,
          skipBlanks, emitEnd, emitEvent, isLetter, isName, isBlank, isSpace, isNL,
          isDigit, List.dropWhile]
  constructor
  · rintro rfl
    simp [next, read, parseNode, hend, pop]
  · rintro t s rfl hne
    simp [next, read, parseNode, hend, pop, hne]

/-- C3 witness: both error kinds at concrete inputs. -/
theorem c3_close_tag_errors_witness :
    next 10 ⟨⟨"</a>".toList, false, []⟩, []⟩ = .error .stackEmpty ∧
    next 10 ⟨⟨"</a>".toList, false, []⟩, [{ ns := "", name := "b" }]⟩ =
      .error (.malformed "element mismatched b vs a") := by
  constructor
  · exact (c3_close_tag_errors 10 [] false [] []).1 rfl
  · exact (c3_close_tag_errors 10 [] false [] [{ ns := "", name := "b" }]).2
      { ns := "", name := "b" } [] rfl (by decide)

/-- C4 (amended): resolving an entity reference whose name is not one of
quot, apos, lt, gt, amp fails with an error wrapping the malformed-document
sentinel, but decoding a numeric entity containing a digit outside the
declared digit set fails with the unexpected-character error instead. -/
theorem c4_entity_error_kinds :
    (∀ (base : Nat) (accept : Char → Bool) (ds : List Char) (c : Char) (rest : Input),
      (∀ d ∈ ds, accept d = true ∧ d ≠ ';') → accept c = false → c ≠ ';' →
      parseNumericEntity base accept (ds ++ c :: rest) = .error (.char c)) ∧
    (∀ (nm : List Char) (rest : Input),
      (∀ d ∈ nm, isLetter d = true) → entities (String.mk nm) = none →
      parseStringEntity (nm ++ ';' :: rest) =
        .error (.malformed (String.mk nm ++ " unknown entity"))) := by
  constructor
  · intro base accept ds c rest hds hc hs
    rw [parseNumericEntity, parseNumericEntityLoop_bad accept ds c rest [] hds hc hs]
  · intro nm rest hnm hent
    rw [parseStringEntity, parseStringEntityLoop_run nm rest [] hnm]
    simp [hent]

/-- C4 witness: a bad hex digit and an unknown entity name at concrete
inputs. -/
theorem c4_entity_error_kinds_witness :
    parseNumericEntity 16 isHex "2g;".toList = .error (.char 'g') ∧
    parseStringEntity "foo;".toList = .error (.malformed "foo unknown entity") := by
  constructor
  · exact c4_entity_error_kinds.1 16 isHex ['2'] 'g' [';'] (by decide) (by decide) (by decide)
  · exact c4_entity_error_kinds.2 ['f', 'o', 'o'] [] (by decide) (by decide)

/-- C10: when the filter answers skip-subtree for a token that is not a
non-self-closing begin-element, `skipSubtree` returns the state unchanged,
so `Read` merely drops that single token and continues scanning exactly as
it does for skip-token. -/
theorem c10_ignore_non_subtree (fuel : Nat) (keep : KeepFunc) (st st' : RState) (n : Node)
    (hn : n.type ≠ .beginElement ∨ n.selfClosing = true) :
    skipSubtree fuel n st' = .ok st' ∧
    (next fuel st = .ok (n, st') → keep n.type n.name = .ignore →
      Read (fuel + 1) keep st = Read fuel keep st') := by
  have hskip : skipSubtree fuel n st' = .ok st' := by
    unfold skipSubtree
    rcases hn with h | h <;> simp [h]
  refine ⟨hskip, fun hnext hkeep => ?_⟩
  unfold Read
  simp only [hnext, hkeep, hskip]
  cases fuel <;> rfl

/-- C10 witness: a text token under a filter that ignores text. -/
theorem c10_ignore_non_subtree_witness :
    skipSubtree 10 { type := .text, content := "x" }
        ⟨⟨"<a>".toList, false, [.textEv "x"]⟩, []⟩ =
      .ok ⟨⟨"<a>".toList, false, [.textEv "x"]⟩, []⟩ ∧
    Read 11 ignoreTextF (initState "x<a>") =
      Read 10 ignoreTextF ⟨⟨"<a>".toList, false, [.textEv "x"]⟩, []⟩ := by
  have h := c10_ignore_non_subtree 10 ignoreTextF (initState "x<a>")
      ⟨⟨"<a>".toList, false, [.textEv "x"]⟩, []⟩ { type := .text, content := "x" }
      (Or.inl (by decide))
  exact ⟨h.1, h.2 rfl rfl⟩

/-- Helper: a dispatch round over callbacks that all answer success keeps
the list and invokes every callback in registration order. -/
theorem emitNodeRun_allOk (n : Name) (l : List Callback) (h : ∀ c ∈ l, c.fn n = .ok) :
    emitNodeRun n l = (l, .ok, l.map Callback.id) := by
  induction l with
  | nil => rfl
  | cons cb rest ih =>
    have hcb := h cb (List.mem_cons_self ..)
    simp [emitNodeRun, hcb, ih (fun c hc => h c (List.mem_cons_of_mem _ hc))]

/-- Helper: a dispatch round only invokes callbacks registered in the list
it was handed, and the surviving list is drawn from that list. -/
theorem emitNodeRun_bounds (m : Name) (l : List Callback) :
    (∀ i ∈ (emitNodeRun m l).2.2, i ∈ l.map Callback.id) ∧
    (∀ d ∈ (emitNodeRun m l).1, d ∈ l) := by
  induction l with
  | nil => simp [emitNodeRun]
  | cons cb rest ih =>
    cases hf : cb.fn m with
    | ok =>
      simp only [emitNodeRun, hf]
      constructor
      · intro i hi
        rcases List.mem_cons.mp hi with rfl | hi'
        · simp
        · simp only [List.map_cons, List.mem_cons]
          exact Or.inr (ih.1 i hi')
      · intro d hd
        rcases List.mem_cons.mp hd with rfl | hd'
        · simp
        · exact List.mem_cons_of_mem _ (ih.2 d hd')
    | unsub =>
      simp only [emitNodeRun, hf]
      constructor
      · intro i hi
        rcases List.mem_cons.mp hi with rfl | hi'
        · simp
        · simp only [List.map_cons, List.mem_cons]
          exact Or.inr (ih.1 i hi')
      · intro d hd
        exact List.mem_cons_of_mem _ (ih.2 d hd)
    | stop =>
      simp [emitNodeRun, hf]
    | fail =>
      simp [emitNodeRun, hf]

/-- C7: in one dispatch round, a callback answering stop ends the round
with success and exactly the earlier callbacks plus itself were invoked
(no later-registered callback fires, no error surfaces, no one is removed);
a callback answering unsubscribe is removed from the surviving list while
the remaining callbacks still fire in registration order; and any round
only ever invokes callbacks present in the list it dispatches over, so a
removed callback is never invoked for a subsequent event of the category. -/
theorem c7_stop_unsub_round (n : Name) (l1 l2 : List Callback) (cb : Callback)
    (h1 : ∀ c ∈ l1, c.fn n = .ok) (h2 : ∀ c ∈ l2, c.fn n = .ok) :
    (cb.fn n = .stop →
      emitNodeRun n (l1 ++ cb :: l2) = (l1 ++ cb :: l2, .ok, l1.map Callback.id ++ [cb.id])) ∧
    (cb.fn n = .unsub →
      emitNodeRun n (l1 ++ cb :: l2) =
        (l1 ++ l2, .ok, l1.map Callback.id ++ cb.id :: l2.map Callback.id)) ∧
    (∀ (m : Name) (l : List Callback),
      (∀ i ∈ (emitNodeRun m l).2.2, i ∈ l.map Callback.id) ∧
      (∀ d ∈ (emitNodeRun m l).1, d ∈ l)) := by
  refine ⟨fun hstop => ?_, fun hunsub => ?_, fun m l => emitNodeRun_bounds m l⟩
  · induction l1 with
    | nil => simp [emitNodeRun, hstop]
    | cons c cs ih =>
      have hc := h1 c (List.mem_cons_self ..)
      simp [emitNodeRun, hc,
        ih (fun x hx => h1 x (List.mem_cons_of_mem _ hx))]
  · induction l1 with
    | nil => simp [emitNodeRun, hunsub, emitNodeRun_allOk n l2 h2]
    | cons c cs ih =>
      have hc := h1 c (List.mem_cons_self ..)
      simp [emitNodeRun, hc,
        ih (fun x hx => h1 x (List.mem_cons_of_mem _ hx))]

/-- C7 witness: a stop round and an unsubscribe round over three concrete
callbacks. -/
theorem c7_stop_unsub_round_witness :
    emitNodeRun { ns := "", name := "e" } [cbOkA, cbStopB, cbOkC] =
      ([cbOkA, cbStopB, cbOkC], .ok, [0, 1]) ∧
    emitNodeRun { ns := "", name := "e" } [cbOkA, cbUnsubD, cbOkC] =
      ([cbOkA, cbOkC], .ok, [0, 3, 2]) := by
  have hone : ∀ c ∈ [cbOkA], c.fn { ns := "", name := "e" } = .ok := by
    intro c hc; simp only [List.mem_singleton] at hc; subst hc; rfl
  have htwo : ∀ c ∈ [cbOkC], c.fn { ns := "", name := "e" } = .ok := by
    intro c hc; simp only [List.mem_singleton] at hc; subst hc; rfl
  constructor
  · exact (c7_stop_unsub_round { ns := "", name := "e" } [cbOkA] [cbOkC] cbStopB
      hone htwo).1 rfl
  · exact (c7_stop_unsub_round { ns := "", name := "e" } [cbOkA] [cbOkC] cbUnsubD
      hone htwo).2.1 rfl

/-- Helper: every token produced by `parseText` has type text. -/
theorem parseText_type (fuel : Nat) (sc : Scan) (n : Node) (sc' : Scan)
    (h : parseText fuel sc = .ok (n, sc')) : n.type = .text := by
  unfold parseText at h
  repeat' (first | split at h | simp only [] at h)
  all_goals (first
    | exact Except.noConfusion h
    | (obtain ⟨h1, -⟩ := Prod.mk.inj (Except.ok.inj h); subst h1; rfl))

/-- Helper: every token produced by `parseInstruction` has type
processing-instruction and is self-closing. -/
theorem parseInstruction_type (fuel : Nat) (sc : Scan) (n : Node) (sc' : Scan)
    (h : parseInstruction fuel sc = .ok (n, sc')) :
    n.type = .procInst ∧ n.selfClosing = true := by
  unfold parseInstruction at h
  repeat' (first | split at h | simp only [] at h)
  all_goals (first
    | exact Except.noConfusion h
    | (obtain ⟨h1, -⟩ := Prod.mk.inj (Except.ok.inj h); subst h1; exact ⟨rfl, rfl⟩))

/-- Helper: every token produced by `parseData` has type cdata and is
self-closing. -/
theorem parseData_type (sc : Scan) (n : Node) (sc' : Scan)
    (h : parseData sc = .ok (n, sc')) : n.type = .cdata ∧ n.selfClosing = true := by
  unfold parseData at h
  repeat' (first | split at h | simp only [] at h)
  all_goals (first
    | exact Except.noConfusion h
    | (obtain ⟨h1, -⟩ := Prod.mk.inj (Except.ok.inj h); subst h1; exact ⟨rfl, rfl⟩))

/-- Helper: every token produced by `parseComment` has type comment and is
self-closing. -/
theorem parseComment_type (fuel : Nat) (sc : Scan) (n : Node) (sc' : Scan)
    (h : parseComment fuel sc = .ok (n, sc')) :
    n.type = .comment ∧ n.selfClosing = true := by
  unfold parseComment at h
  repeat' (first | split at h | simp only [] at h)
  all_goals (first
    | exact Except.noConfusion h
    | (obtain ⟨h1, -⟩ := Prod.mk.inj (Except.ok.inj h); subst h1; exact ⟨rfl, rfl⟩))

/-- Helper: every token produced by `parseEndElement` has type end-element. -/
theorem parseEndElement_type (sc : Scan) (n : Node) (sc' : Scan)
    (h : parseEndElement sc = .ok (n, sc')) : n.type = .endElement := by
  unfold parseEndElement at h
  repeat' (first | split at h | simp only [] at h)
  all_goals (first
    | exact Except.noConfusion h
    | (obtain ⟨h1, -⟩ := Prod.mk.inj (Except.ok.inj h); subst h1; rfl))

/-- Helper: every token produced by `parseOpenElement` has type
begin-element. -/
theorem parseOpenElement_type (fuel : Nat) (sc : Scan) (n : Node) (sc' : Scan)
    (h : parseOpenElement fuel sc = .ok (n, sc')) : n.type = .beginElement := by
  unfold parseOpenElement at h
  repeat' (first | split at h | simp only [] at h)
  all_goals (first
    | exact Except.noConfusion h
    | (obtain ⟨h1, -⟩ := Prod.mk.inj (Except.ok.inj h); subst h1; rfl))

/-- C6: when a scan step yields a begin-element token, the open-element
stack after the step is one deeper than before it unless the token is
self-closing, in which case it is unchanged.  (`Read` surfaces the token
and state of its final scan step unchanged, so the depths observed around
that scan step are the depths the caller observes.) -/
theorem c6_depth_after_begin (fuel : Nat) (st : RState) (n : Node) (st' : RState)
    (hnext : next fuel st = .ok (n, st')) (htype : n.type = .beginElement) :
    st'.stack.length = if n.selfClosing then st.stack.length else st.stack.length + 1 := by
  unfold next parseNode at hnext
  repeat' (first | split at hnext | simp only [] at hnext)
  all_goals (first | exact Except.noConfusion hnext | skip)
  all_goals obtain ⟨h1, h2⟩ := Prod.mk.inj (Except.ok.inj hnext)
  all_goals subst h1
  all_goals subst h2
  all_goals (first
    | exact absurd htype (by rw [parseText_type _ _ _ _ (by assumption)]; simp)
    | exact absurd htype (by rw [(parseInstruction_type _ _ _ _ (by assumption)).1]; simp)
    | exact absurd htype (by rw [(parseData_type _ _ _ (by assumption)).1]; simp)
    | exact absurd htype (by rw [(parseComment_type _ _ _ _ (by assumption)).1]; simp)
    | exact absurd htype (by rw [parseEndElement_type _ _ _ (by assumption)]; simp)
    | (split <;> simp_all [push]))

/-- C6 witness: scanning `<a>` from depth 0 leaves depth 1. -/
theorem c6_depth_after_begin_witness :
    next 10 (initState "<a>") =
      .ok ({ type := .beginElement, name := { ns := "", name := "a" } },
           ⟨⟨[], false, [.beginElem { ns := "", name := "a" }]⟩,
            [{ ns := "", name := "a" }]⟩) ∧
    (⟨⟨[], false, [.beginElem { ns := "", name := "a" }]⟩,
      [{ ns := "", name := "a" }]⟩ : RState).stack.length =
      if ({ type := .beginElement, name := { ns := "", name := "a" } } : Node).selfClosing
      then (initState "<a>").stack.length
      else (initState "<a>").stack.length + 1 := by
  refine ⟨rfl, ?_⟩
  exact c6_depth_after_begin 10 (initState "<a>") _ _ rfl rfl

/-- Helper: a blank (space, tab, newline, carriage return) is whitespace
for `strings.TrimSpace`. -/
theorem blank_go (c : Char) (h : isBlank c = true) : goIsSpace c = true := by
  simp [isBlank, isSpace, isNL] at h
  rcases h with (rfl | rfl) | (rfl | rfl) <;> decide

/-- Helper: dropping a blank prefix first does not change a whitespace
drop. -/
theorem dropWhile_go_blank (cs : List Char) :
    (cs.dropWhile isBlank).dropWhile goIsSpace = cs.dropWhile goIsSpace := by
  induction cs with
  | nil => rfl
  | cons c cs ih =>
    by_cases hc : isBlank c = true
    · rw [List.dropWhile_cons_of_pos hc, List.dropWhile_cons_of_pos (blank_go c hc), ih]
    · rw [List.dropWhile_cons_of_neg (by simpa using hc)]

/-- Helper: trimming after a leading-blank skip equals plain trimming. -/
theorem trimStr_skipBlanks (cs : List Char) : trimStr (skipBlanks cs) = trimStr cs := by
  unfold trimStr trimList skipBlanks
  rw [dropWhile_go_blank]

/-- Helper: the one-character lookahead over `cs ++ ']' :: t` does not
depend on `t`. -/
theorem peek_append_rbr (cs : List Char) (t : Input) :
    peek (cs ++ ']' :: t) = peek (cs ++ [']']) := by
  cases cs <;> rfl

/-- Helper: decompose absence of `]]` at a cons cell. -/
theorem hasDD_cons_false (c : Char) (l : List Char) (h : hasDD (c :: l) = false) :
    hasDD l = false ∧ ¬(c = ']' ∧ peek l = ']') := by
  cases l with
  | nil =>
    refine ⟨rfl, ?_⟩
    rintro ⟨rfl, hp⟩
    simp [peek] at hp
  | cons d r =>
    simp only [hasDD, Bool.or_eq_false_iff, Bool.and_eq_false_iff] at h
    refine ⟨h.2, ?_⟩
    rintro ⟨rfl, hp⟩
    simp [peek] at hp
    rcases h.1 with h1 | h1 <;> simp [hp] at h1

/-- Helper: `]]` in a tail is `]]` in the whole list. -/
theorem hasDD_cons_true (c : Char) (l : List Char) (h : hasDD l = true) :
    hasDD (c :: l) = true := by
  cases l with
  | nil => simp [hasDD] at h
  | cons d r => simp [hasDD] at h ⊢; right; exact h

/-- Helper: dropping a prefix preserves absence of `]]`. -/
theorem hasDD_dropWhile_false (p : Char → Bool) (cs t : List Char)
    (h : hasDD (cs ++ t) = false) : hasDD (cs.dropWhile p ++ t) = false := by
  induction cs with
  | nil => simpa using h
  | cons c cs ih =>
    by_cases hc : p c = true
    · rw [List.dropWhile_cons_of_pos hc]
      exact ih (hasDD_cons_false c _ h).1
    · rw [List.dropWhile_cons_of_neg (by simpa using hc)]
      exact h

/-- Helper: one ordinary step of the CDATA loop. -/
theorem parseDataLoop_step (acc : List Char) (c : Char) (rest' : Input)
    (h : ¬(c = ']' ∧ peek rest' = ']')) :
    parseDataLoop acc (c :: rest') = parseDataLoop (acc ++ [c]) rest' := by
  simp [parseDataLoop, h]

/-- Helper: the CDATA loop consumes `]]`-free content up to `]]>` and
returns it raw. -/
theorem parseDataLoop_complete (cs : List Char) (rest : Input) :
    ∀ acc, hasDD (cs ++ [']']) = false →
      parseDataLoop acc (cs ++ ']' :: ']' :: '>' :: rest) = .ok (acc ++ cs, rest) := by
  induction cs with
  | nil =>
    intro acc _
    simp [parseDataLoop, peek, read]
  | cons c cs ih =>
    intro acc h
    obtain ⟨h2, h1⟩ := hasDD_cons_false c _ h
    have hcond : ¬(c = ']' ∧ peek (cs ++ ']' :: ']' :: '>' :: rest) = ']') := by
      rw [peek_append_rbr]
      exact h1
    rw [List.cons_append, parseDataLoop_step acc c _ hcond, ih (acc ++ [c]) h2]
    simp

/-- Helper: the CDATA loop faults on `]]` not followed by `>`. -/
theorem parseDataLoop_bad (cs : List Char) (c : Char) (rest : Input) (hc : c ≠ '>') :
    ∀ acc, hasDD (cs ++ [']']) = false →
      parseDataLoop acc (cs ++ ']' :: ']' :: c :: rest) =
        .error (.malformed "]] can not appear in CDATA sections") := by
  induction cs with
  | nil =>
    intro acc _
    simp [parseDataLoop, peek, read, hc]
  | cons d cs ih =>
    intro acc h
    obtain ⟨h2, h1⟩ := hasDD_cons_false d _ h
    have hcond : ¬(d = ']' ∧ peek (cs ++ ']' :: ']' :: c :: rest) = ']') := by
      rw [peek_append_rbr]
      exact h1
    rw [List.cons_append, parseDataLoop_step acc d _ hcond, ih (acc ++ [d]) h2]

/-- Helper: a leading-blank skip stops at the `]` opening the terminator. -/
theorem skipBlanks_append_rbr (cs : List Char) (t : Input) :
    skipBlanks (cs ++ ']' :: t) = skipBlanks cs ++ ']' :: t := by
  unfold skipBlanks
  induction cs with
  | nil => simp [List.dropWhile, isBlank, isSpace, isNL]
  | cons c cs ih =>
    by_cases hc : isBlank c = true
    · rw [List.cons_append, List.dropWhile_cons_of_pos hc, List.dropWhile_cons_of_pos hc, ih]
    · rw [List.cons_append, List.dropWhile_cons_of_neg (by simpa using hc),
          List.dropWhile_cons_of_neg (by simpa using hc)]
      simp

/-- C8: a well-formed CDATA section (content without `]]`, terminated by
`]]>`) yields a token of type cdata with the self-closing flag set, whose
content is the whitespace-trimmed raw section content — any `&` or `<`
inside is kept verbatim, no entity decoding and no markup parsing — and
dispatch appends exactly one text event carrying that content (in
particular, no comment event); a `]]` inside the section not immediately
followed by `>` is a malformed-document error. -/
theorem c8_cdata_raw_text (cs : List Char) (rest : Input) (tr : List Event)
    (h : hasDD (cs ++ [']']) = false) :
    (parseData ⟨'[' :: 'C' :: 'D' :: 'A' :: 'T' :: 'A' :: '[' ::
        (cs ++ ']' :: ']' :: '>' :: rest), false, tr⟩ =
      .ok ({ type := .cdata, name := { ns := "", name := "CDATA" },
             content := trimStr cs, selfClosing := true },
           ⟨rest, false, tr ++ [.textEv (trimStr cs)]⟩)) ∧
    (∀ c rest2, c ≠ '>' →
      parseData ⟨'[' :: 'C' :: 'D' :: 'A' :: 'T' :: 'A' :: '[' ::
          (cs ++ ']' :: ']' :: c :: rest2), false, tr⟩ =
        .error (.malformed "]] can not appear in CDATA sections")) := by
  constructor
  · have hloop := parseDataLoop_complete (skipBlanks cs) rest []
      (hasDD_dropWhile_false isBlank cs [']'] h)
    simp [parseData, want, read, parseName, parseNameCore, parseNameLoop, peek,
          isLetter, isName, isDigit, skipBlanks_append_rbr, hloop, emitText, emitEvent,
          trimStr_skipBlanks]
  · intro c rest2 hc
    have hloop := parseDataLoop_bad (skipBlanks cs) c rest2 hc []
      (hasDD_dropWhile_false isBlank cs [']'] h)
    simp [parseData, want, read, parseName, parseNameCore, parseNameLoop, peek,
          isLetter, isName, isDigit, skipBlanks_append_rbr, hloop]

/-- C8 witness: the spec's example section, whose content holds markup. -/
theorem c8_cdata_raw_text_witness :
    hasDD (" <x>hi</x> ".toList ++ [']']) = false ∧
    parseData ⟨"[CDATA[ <x>hi</x> ]]>".toList, false, []⟩ =
      .ok ({ type := .cdata, name := { ns := "", name := "CDATA" },
             content := "<x>hi</x>", selfClosing := true },
           ⟨[], false, [.textEv "<x>hi</x>"]⟩) := by
  refine ⟨by decide, ?_⟩
  have h := (c8_cdata_raw_text " <x>hi</x> ".toList [] [] (by decide)).1
  have ht : trimStr " <x>hi</x> ".toList = "<x>hi</x>" := by decide
  rw [ht] at h
  exact h

/-- Helper: in silent mode `parseText` dispatches nothing. -/
theorem parseText_silent (fuel : Nat) (sc : Scan) (n : Node) (sc' : Scan)
    (h : parseText fuel sc = .ok (n, sc')) (hsil : sc.silent = true) :
    sc'.trace = sc.trace ∧ sc'.silent = true := by
  unfold parseText at h
  repeat' (first | split at h | simp only [] at h)
  all_goals (first | exact Except.noConfusion h | skip)
  obtain ⟨-, h2⟩ := Prod.mk.inj (Except.ok.inj h)
  subst h2
  simp [emitText, emitEvent, hsil]

/-- Helper: in silent mode `parseData` dispatches nothing. -/
theorem parseData_silent (sc : Scan) (n : Node) (sc' : Scan)
    (h : parseData sc = .ok (n, sc')) (hsil : sc.silent = true) :
    sc'.trace = sc.trace ∧ sc'.silent = true := by
  unfold parseData at h
  repeat' (first | split at h | simp only [] at h)
  all_goals (first | exact Except.noConfusion h | skip)
  obtain ⟨-, h2⟩ := Prod.mk.inj (Except.ok.inj h)
  subst h2
  simp [emitText, emitEvent, hsil]

/-- Helper: in silent mode `parseComment` dispatches nothing. -/
theorem parseComment_silent (fuel : Nat) (sc : Scan) (n : Node) (sc' : Scan)
    (h : parseComment fuel sc = .ok (n, sc')) (hsil : sc.silent = true) :
    sc'.trace = sc.trace ∧ sc'.silent = true := by
  unfold parseComment at h
  repeat' (first | split at h | simp only [] at h)
  all_goals (first | exact Except.noConfusion h | skip)
  obtain ⟨-, h2⟩ := Prod.mk.inj (Except.ok.inj h)
  subst h2
  simp [emitComment, emitEvent, hsil]

/-- Helper: in silent mode `parseEndElement` dispatches nothing. -/
theorem parseEndElement_silent (sc : Scan) (n : Node) (sc' : Scan)
    (h : parseEndElement sc = .ok (n, sc')) (hsil : sc.silent = true) :
    sc'.trace = sc.trace ∧ sc'.silent = true := by
  unfold parseEndElement at h
  repeat' (first | split at h | simp only [] at h)
  all_goals (first | exact Except.noConfusion h | skip)
  obtain ⟨-, h2⟩ := Prod.mk.inj (Except.ok.inj h)
  subst h2
  simp [emitEnd, emitEvent, hsil]

/-- Helper: in silent mode the attribute loop dispatches nothing. -/
theorem parseAttrsLoop_silent (fuel : Nat) (seen : List Name) (acc : List Attr)
    (sc : Scan) (as : List Attr) (sc2 : Scan)
    (h : parseAttrsLoop fuel seen acc sc = .ok (as, sc2)) (hsil : sc.silent = true) :
    sc2.trace = sc.trace ∧ sc2.silent = true := by
  induction fuel generalizing seen acc sc as with
  | zero => exact Except.noConfusion h
  | succ fuel ih =>
    unfold parseAttrsLoop at h
    repeat' (first | split at h | simp only [] at h)
    all_goals (first | exact Except.noConfusion h | skip)
    · obtain ⟨-, h2⟩ := Prod.mk.inj (Except.ok.inj h)
      subst h2
      exact ⟨rfl, hsil⟩
    · have hres := ih _ _ _ _ h (by simp [scSkipBlanks, emitAttr, emitEvent, hsil])
      simpa [scSkipBlanks, emitAttr, emitEvent, hsil] using hres

/-- Helper: in silent mode `parseInstruction` dispatches nothing. -/
theorem parseInstruction_silent (fuel : Nat) (sc : Scan) (n : Node) (sc' : Scan)
    (h : parseInstruction fuel sc = .ok (n, sc')) (hsil : sc.silent = true) :
    sc'.trace = sc.trace ∧ sc'.silent = true := by
  unfold parseInstruction at h
  repeat' (first | split at h | simp only [] at h)
  all_goals (first | exact Except.noConfusion h | skip)
  obtain ⟨-, h2⟩ := Prod.mk.inj (Except.ok.inj h)
  subst h2
  obtain ⟨ht, hs⟩ := parseAttrsLoop_silent _ _ _ _ _ _ (by assumption)
    (by simp [scSkipBlanks, emitInst, emitEvent, hsil])
  simp [scSkipBlanks, emitInst, emitEvent, hsil] at ht
  exact ⟨ht, hs⟩

/-- Helper: in silent mode `parseOpenElement` dispatches nothing. -/
theorem parseOpenElement_silent (fuel : Nat) (sc : Scan) (n : Node) (sc' : Scan)
    (h : parseOpenElement fuel sc = .ok (n, sc')) (hsil : sc.silent = true) :
    sc'.trace = sc.trace ∧ sc'.silent = true := by
  unfold parseOpenElement at h
  repeat' (first | split at h | simp only [] at h)
  all_goals (first | exact Except.noConfusion h | skip)
  all_goals (
    obtain ⟨-, h2⟩ := Prod.mk.inj (Except.ok.inj h)
    subst h2
    obtain ⟨ht, hs⟩ := parseAttrsLoop_silent _ _ _ _ _ _ (by assumption)
      (by simp [scSkipBlanks, emitBegin, emitEvent, hsil])
    simp [scSkipBlanks, emitBegin, emitEvent, hsil] at ht
    exact ⟨ht, hs⟩)

/-- Helper: in silent mode `parseNode` dispatches nothing. -/
theorem parseNode_silent (fuel : Nat) (st : RState) (n : Node) (st' : RState)
    (h : parseNode fuel st = .ok (n, st')) (hsil : st.scan.silent = true) :
    st'.scan.trace = st.scan.trace ∧ st'.scan.silent = true := by
  unfold parseNode at h
  repeat' (first | split at h | simp only [] at h)
  all_goals (first | exact Except.noConfusion h | skip)
  all_goals (obtain ⟨-, h2⟩ := Prod.mk.inj (Except.ok.inj h); subst h2)
  · rename_i heq
    obtain ⟨ht, hs⟩ := parseInstruction_silent _ _ _ _ heq (by exact hsil)
    exact ⟨by simpa [scSkipBlanks] using ht, by simpa [scSkipBlanks] using hs⟩
  · rename_i heq
    obtain ⟨ht, hs⟩ := parseData_silent _ _ _ heq (by exact hsil)
    exact ⟨by simpa [scSkipBlanks] using ht, by simpa [scSkipBlanks] using hs⟩
  · rename_i heq
    obtain ⟨ht, hs⟩ := parseComment_silent _ _ _ _ heq (by exact hsil)
    exact ⟨by simpa [scSkipBlanks] using ht, by simpa [scSkipBlanks] using hs⟩
  · rename_i heq hx hstk hpop
    obtain ⟨ht, hs⟩ := parseEndElement_silent _ _ _ heq (by exact hsil)
    exact ⟨by simpa [scSkipBlanks] using ht, by simpa [scSkipBlanks] using hs⟩
  · rename_i heq
    obtain ⟨ht, hs⟩ := parseOpenElement_silent _ _ _ _ heq (by exact hsil)
    exact ⟨by simpa [scSkipBlanks] using ht, by simpa [scSkipBlanks] using hs⟩

/-- Helper: in silent mode one scan step dispatches nothing. -/
theorem next_silent (fuel : Nat) (st : RState) (n : Node) (st' : RState)
    (h : next fuel st = .ok (n, st')) (hsil : st.scan.silent = true) :
    st'.scan.trace = st.scan.trace ∧ st'.scan.silent = true := by
  unfold next at h
  repeat' (first | split at h | simp only [] at h)
  all_goals (first | exact Except.noConfusion h | skip)
  · obtain ⟨ht, hs⟩ := parseNode_silent _ _ _ _ h (by exact hsil)
    exact ⟨ht, hs⟩
  · obtain ⟨-, h2⟩ := Prod.mk.inj (Except.ok.inj h)
    subst h2
    rename_i heq
    obtain ⟨ht, hs⟩ := parseText_silent _ _ _ _ heq (by exact hsil)
    exact ⟨ht, hs⟩

/-- Helper: the skip loop, entered silent, dispatches nothing and exits
with silent restored to off by the deferred toggle. -/
theorem skipLoop_silent (fuel : Nat) (n : Node) (depth : Nat) (st st'' : RState)
    (h : skipLoop fuel n depth st = .ok st'') (hsil : st.scan.silent = true) :
    st''.scan.trace = st.scan.trace ∧ st''.scan.silent = false := by
  induction fuel generalizing st with
  | zero => exact Except.noConfusion h
  | succ fuel ih =>
    unfold skipLoop at h
    rcases hn : next fuel st with e | ⟨c, st'⟩
    · rw [hn] at h; exact Except.noConfusion h
    · rw [hn] at h
      simp only [] at h
      obtain ⟨ht, hs⟩ := next_silent fuel st c st' hn hsil
      by_cases hcond : (st'.stack.length = depth ∧ n.name = c.name)
      · rw [if_pos hcond] at h
        obtain h2 := Except.ok.inj h
        subst h2
        simp [silentToggle, ht, hs]
      · rw [if_neg hcond] at h
        obtain ⟨ht2, hs2⟩ := ih st' h hs
        exact ⟨ht2.trans ht, hs2⟩

/-- Helper: with dispatch live, the attribute loop appends exactly one
attribute event per attribute parsed, in source order. -/
theorem parseAttrsLoop_trace (fuel : Nat) (seen : List Name) (acc : List Attr)
    (sc : Scan) (as : List Attr) (sc2 : Scan)
    (h : parseAttrsLoop fuel seen acc sc = .ok (as, sc2)) (hsil : sc.silent = false) :
    ∃ new, as = acc ++ new ∧ sc2.trace = sc.trace ++ new.map evAttr ∧ sc2.silent = false := by
  induction fuel generalizing seen acc sc as with
  | zero => exact Except.noConfusion h
  | succ fuel ih =>
    unfold parseAttrsLoop at h
    repeat' (first | split at h | simp only [] at h)
    all_goals (first | exact Except.noConfusion h | skip)
    · obtain ⟨h1, h2⟩ := Prod.mk.inj (Except.ok.inj h)
      subst h1
      subst h2
      exact ⟨[], by simp, by simp, hsil⟩
    · obtain ⟨new', h1, h2, h3⟩ := ih _ _ _ _ h
        (by simp [scSkipBlanks, emitAttr, emitEvent, hsil])
      rw [List.append_assoc] at h1
      refine ⟨_, h1, ?_, h3⟩
      rw [h2]
      simp [scSkipBlanks, emitAttr, emitEvent, evAttr, hsil]

end Sax

namespace Sax

/-- Helper: with dispatch live, `parseOpenElement` appends exactly the
token's begin-element event followed by one attribute event per parsed
attribute. -/
theorem parseOpenElement_trace (fuel : Nat) (sc : Scan) (n : Node) (sc' : Scan)
    (h : parseOpenElement fuel sc = .ok (n, sc')) (hsil : sc.silent = false) :
    sc'.trace = sc.trace ++ .beginElem n.name :: n.attrs.map evAttr ∧ sc'.silent = false := by
  unfold parseOpenElement at h
  repeat' (first | split at h | simp only [] at h)
  all_goals (first | exact Except.noConfusion h | skip)
  all_goals (
    obtain ⟨h1, h2⟩ := Prod.mk.inj (Except.ok.inj h)
    subst h1
    subst h2
    obtain ⟨new, ha, ht, hs⟩ := parseAttrsLoop_trace _ _ _ _ _ _ (by assumption)
      (by simp [scSkipBlanks, emitBegin, emitEvent, hsil])
    subst ha
    refine ⟨?_, hs⟩
    simp [scSkipBlanks, emitBegin, emitEvent, hsil] at ht
    simpa using ht)

/-- C9: when a scan step returns a begin-element token with dispatch live,
the trace already holds the element's own begin-element event and one
attribute event per attribute — these fire inside the scan step, before
`Read` ever consults the filter — and a subsequent `skipSubtree` for that
token appends nothing: silent mode only suppresses events of tokens
scanned after the filter decision, never the element's own opening
events. -/
theorem c9_element_events_precede_skip (fuel : Nat) (st : RState) (n : Node) (st' : RState)
    (hsil : st.scan.silent = false)
    (hnext : next fuel st = .ok (n, st')) (htype : n.type = .beginElement) :
    st'.scan.trace = st.scan.trace ++ .beginElem n.name :: n.attrs.map evAttr ∧
    st'.scan.silent = false ∧
    (∀ fuel2 st'', skipSubtree fuel2 n st' = .ok st'' → st''.scan.trace = st'.scan.trace) := by
  have hmain : st'.scan.trace = st.scan.trace ++ .beginElem n.name :: n.attrs.map evAttr ∧
      st'.scan.silent = false := by
    unfold next parseNode at hnext
    repeat' (first | split at hnext | simp only [] at hnext)
    all_goals (first | exact Except.noConfusion hnext | skip)
    all_goals (obtain ⟨h1, h2⟩ := Prod.mk.inj (Except.ok.inj hnext); subst h1; subst h2)
    · exact absurd htype (by rw [(parseInstruction_type _ _ _ _ (by assumption)).1]; simp)
    · exact absurd htype (by rw [(parseData_type _ _ _ (by assumption)).1]; simp)
    · exact absurd htype (by rw [(parseComment_type _ _ _ _ (by assumption)).1]; simp)
    · rename_i heq hx hstk hpop
      exact absurd htype (by rw [parseEndElement_type _ _ _ heq]; simp)
    · rename_i heq
      obtain ⟨ht, hs⟩ := parseOpenElement_trace _ _ _ _ heq (by exact hsil)
      exact ⟨by simpa [scSkipBlanks] using ht, by simpa [scSkipBlanks] using hs⟩
    · rename_i heq
      exact absurd htype (by rw [parseText_type _ _ _ _ heq]; simp)
  refine ⟨hmain.1, hmain.2, fun fuel2 st'' hskip => ?_⟩
  unfold skipSubtree at hskip
  split at hskip
  · obtain h2 := Except.ok.inj hskip
    subst h2
    rfl
  · simp only [] at hskip
    obtain ⟨ht, -⟩ := skipLoop_silent _ _ _ _ _ hskip (by simp [silentToggle, hmain.2])
    simpa [silentToggle] using ht

/-- C9 witness: `<a k=\"v\"><a></a></a>` — begin and attribute events are
in the trace before the skip, and the (early-terminating) skip adds
nothing. -/
theorem c9_element_events_precede_skip_witness :
    next 30 (initState "<a k=\"v\"><a></a></a>") =
      .ok ({ type := .beginElement, name := { ns := "", name := "a" },
             attrs := [{ name := { ns := "", name := "k" }, value := "v" }] },
           ⟨⟨"<a></a></a>".toList, false,
             [.beginElem { ns := "", name := "a" },
              .attrEv { ns := "", name := "k" } "v"]⟩,
            [{ ns := "", name := "a" }]⟩) ∧
    ([.beginElem { ns := "", name := "a" },
      .attrEv { ns := "", name := "k" } "v"] : List Event) =
      [] ++ .beginElem { ns := "", name := "a" } ::
        ([{ name := { ns := "", name := "k" }, value := "v" }] : List Attr).map evAttr ∧
    skipSubtree 20
      { type := .beginElement, name := { ns := "", name := "a" },
        attrs := [{ name := { ns := "", name := "k" }, value := "v" }] }
      ⟨⟨"<a></a></a>".toList, false,
        [.beginElem { ns := "", name := "a" }, .attrEv { ns := "", name := "k" } "v"]⟩,
       [{ ns := "", name := "a" }]⟩ =
      .ok ⟨⟨"</a>".toList, false,
        [.beginElem { ns := "", name := "a" }, .attrEv { ns := "", name := "k" } "v"]⟩,
       [{ ns := "", name := "a" }]⟩ ∧
    ([.beginElem { ns := "", name := "a" },
      .attrEv { ns := "", name := "k" } "v"] : List Event) =
      [.beginElem { ns := "", name := "a" }, .attrEv { ns := "", name := "k" } "v"] := by
  have h := c9_element_events_precede_skip 30 (initState "<a k=\"v\"><a></a></a>")
    { type := .beginElement, name := { ns := "", name := "a" },
      attrs := [{ name := { ns := "", name := "k" }, value := "v" }] }
    ⟨⟨"<a></a></a>".toList, false,
      [.beginElem { ns := "", name := "a" }, .attrEv { ns := "", name := "k" } "v"]⟩,
     [{ ns := "", name := "a" }]⟩ rfl rfl rfl
  refine ⟨rfl, h.1, rfl, ?_⟩
  exact h.2.2 20 _ rfl

end Sax
